import Mathlib

/-!
Shallow embedding of the internship-dashboard ingestion pipeline
(`src/app.py`): `fetch_internship_data` (lines 133-191),
`standardize_columns` (lines 194-238) and `format_deadline`
(lines 240-256), together with the pandas semantics those functions
rely on (`pd.DataFrame(rows, columns=headers)`, `df.rename`,
`df[col] = value`, `pd.to_datetime(..., errors="coerce")`,
`pd.isna`).
-/

/-- One spreadsheet/pandas cell: raw text, a parsed calendar date
(`pandas.Timestamp`, kept as year/month/day), or the missing-value
marker (`NaN`/`NaT`/`None`). -/
inductive Cell where
  | str (s : String)
  | date (y m d : Nat)
  | nan
deriving DecidableEq

/-- A pandas `DataFrame`: an ordered list of column labels and the
data rows (each row a list of cells; construction keeps rows exactly
as wide as the column list). -/
structure DataFrame where
  columns : List String
  rows : List (List Cell)
deriving DecidableEq

/-- The empty frame `pd.DataFrame()`. -/
def DataFrame.empty : DataFrame := ⟨[], []⟩

/-- Index of the first occurrence of a label in a column list (the
column position pandas uses for `df[name]` when `name` occurs once);
returns the length when absent. -/
def colIndex (cols : List String) (c : String) : Nat :=
  match cols with
  | [] => 0
  | c' :: rest => if c' = c then 0 else colIndex rest c + 1

/-- Number of occurrences of a label in a column list. -/
def colOccurs (cols : List String) (c : String) : Nat :=
  (cols.filter (fun x => x = c)).length

/-- Field access `df[name][i]` on a record: `none` models a `KeyError`
(label absent); with the label present it reads the cell of row `i`
at the first occurrence of the label. -/
def DataFrame.getCell (df : DataFrame) (i : Nat) (name : String) : Option Cell :=
  if name ∈ df.columns then
    df.rows[i]?.bind (fun r => r[colIndex df.columns name]?)
  else none

/-- Pandas row padding: a data row shorter than the header is filled
with `NaN` for the missing trailing columns. -/
def padRow (w : Nat) (r : List String) : List Cell :=
  r.map Cell.str ++ List.replicate (w - r.length) Cell.nan

/-- Width of the widest data row: the column count pandas infers from
a list-of-lists payload. -/
def maxWidth (rows : List (List String)) : Nat :=
  rows.foldl (fun a r => max a r.length) 0

/-- Semantics of `pd.DataFrame(rows, columns=headers)` (app.py line
179). With no data rows the frame is empty with the given columns.
Otherwise pandas infers the column count from the widest data row and
raises `ValueError` ("N columns passed, passed data had M columns")
unless that count equals the header length — a widest row that is
wider *or* narrower than the header both raise — and on success the
rows shorter than the header are padded with `NaN`. -/
def mkDataFrame (rows : List (List String)) (headers : List String) :
    Except String DataFrame :=
  if rows = [] then .ok ⟨headers, []⟩
  else if maxWidth rows = headers.length then
    .ok ⟨headers, rows.map (padRow headers.length)⟩
  else .error "columns passed, passed data had a different number of columns"

/-- Split a character list at every dash. -/
def splitOnDash : List Char → List (List Char)
  | [] => [[]]
  | c :: rest =>
    let r := splitOnDash rest
    if c = '-' then [] :: r
    else
      match r with
      | [] => [[c]]
      | g :: gs => (c :: g) :: gs

/-- All characters are decimal digits and there is at least one. -/
def allDigits (s : List Char) : Bool :=
  !s.isEmpty && s.all (fun c => c.isDigit)

/-- Decimal value of a digit list. -/
def natOfDigits (s : List Char) : Nat :=
  s.foldl (fun a c => a * 10 + (c.toNat - 48)) 0

/-- Gregorian leap year. -/
def isLeap (y : Nat) : Bool :=
  (y % 4 = 0 && y % 100 ≠ 0) || y % 400 = 0

/-- Length of a month. -/
def daysInMonth (y m : Nat) : Nat :=
  if m = 2 then (if isLeap y then 29 else 28)
  else if m = 4 ∨ m = 6 ∨ m = 9 ∨ m = 11 then 30
  else 31

/-- One concrete date parser: the unambiguous ISO-like year-month-day
form the spec requires the library parser to accept at minimum
(`YYYY-MM-DD`, numeric components, a valid calendar combination);
empty and non-conforming text fail. `pd.to_datetime` accepts more
formats than this, so the theorems about date conversion quantify
over an abstract parser `P`, and this function serves as a concrete
instance of `P` for evaluating the model. -/
def parseDate (s : String) : Option (Nat × Nat × Nat) :=
  match splitOnDash s.toList with
  | [ys, ms, ds] =>
    if allDigits ys && allDigits ms && allDigits ds then
      let y := natOfDigits ys
      let m := natOfDigits ms
      let d := natOfDigits ds
      if 1 ≤ m ∧ m ≤ 12 ∧ 1 ≤ d ∧ d ≤ daysInMonth y m then some (y, m, d)
      else none
    else none
  | _ => none

/-- Elementwise behaviour of `pd.to_datetime(x, errors="coerce")`,
given the library's per-cell date parser `P`. The parser is kept
abstract because `pd.to_datetime` accepts many textual formats; the
structure is the library's: a string cell becomes a date when `P`
parses it and `NaT` otherwise; a missing cell stays `NaT`; an
already-converted date is kept. `parseDate` above is one concrete
instance of `P`. -/
def coerceCellWith (P : String → Option (Nat × Nat × Nat)) (c : Cell) : Cell :=
  match c with
  | .str s =>
    match P s with
    | some (y, m, d) => .date y m d
    | none => .nan
  | .date y m d => .date y m d
  | .nan => .nan

/-- Effect on one row of `df[name] = pd.to_datetime(df[name],
errors="coerce")`: the cell at the column's position is coerced. -/
def setDateCell (P : String → Option (Nat × Nat × Nat)) (cols : List String)
    (name : String) (row : List Cell) : List Cell :=
  row.set (colIndex cols name)
    (coerceCellWith P (row.getD (colIndex cols name) Cell.nan))

/-- Column-wise date conversion `df[name] = pd.to_datetime(df[name],
errors="coerce")` applied to a whole frame. -/
def convertColumn (P : String → Option (Nat × Nat × Nat)) (df : DataFrame)
    (name : String) : DataFrame :=
  ⟨df.columns, df.rows.map (setDateCell P df.columns name)⟩

/-- The `try` block of app.py lines 182-186: convert `応募締切`, then
`開始予定日`. A missing label raises `KeyError` and a duplicated label
makes `pd.to_datetime` receive a sub-`DataFrame` and raise, so unless
a label occurs exactly once the conversion at that point stops and the
bare `except: pass` leaves the remaining columns unconverted. -/
def dateConvert (P : String → Option (Nat × Nat × Nat)) (df : DataFrame) : DataFrame :=
  if colOccurs df.columns "応募締切" = 1 then
    if colOccurs (convertColumn P df "応募締切").columns "開始予定日" = 1 then
      convertColumn P (convertColumn P df "応募締切") "開始予定日"
    else convertColumn P df "応募締切"
  else df

/-- Per-row restatement of `dateConvert` used by the lemmas. -/
def applyDateCols (P : String → Option (Nat × Nat × Nat)) (cols : List String)
    (row : List Cell) : List Cell :=
  if colOccurs cols "応募締切" = 1 then
    if colOccurs cols "開始予定日" = 1 then
      setDateCell P cols "開始予定日" (setDateCell P cols "応募締切" row)
    else setDateCell P cols "応募締切" row
  else row

/-- Whole per-row processing of the fetch pipeline: pandas padding to
the header width followed by the date conversion. -/
def processRow (P : String → Option (Nat × Nat × Nat)) (cols : List String)
    (r : List String) : List Cell :=
  applyDateCols P cols (padRow cols.length r)

/-- Lines 169-188 of `fetch_internship_data`, given the `values` list
the spreadsheet call produced and the library's date parser `P`:
empty `values` yields the empty frame (line 172); otherwise the first
row is the header and the rest the data (lines 175-176), the frame is
built (line 179, a `ValueError` propagating to the line-189 handler
which returns the empty frame) and the two date columns are converted
(lines 182-186). -/
def fetch_from_values_with (P : String → Option (Nat × Nat × Nat))
    (values : List (List String)) : DataFrame :=
  match values with
  | [] => DataFrame.empty
  | headers :: rows =>
    match mkDataFrame rows headers with
    | .error _ => DataFrame.empty
    | .ok df => dateConvert P df

/-- The fetch pipeline instantiated with the ISO-form parser instance,
used to evaluate the model on concrete grids. -/
def fetch_from_values (values : List (List String)) : DataFrame :=
  fetch_from_values_with parseDate values

/-- Environment of one call to `fetch_internship_data`:
`serviceAvailable` is whether `get_google_sheets_service()` returned a
service (it returns `None` both when the secret is missing and when
building the client raises); `remoteResult` is the outcome of the
`spreadsheets().values().get(...).execute()` call, `.error` modelling
a raised exception and `.ok` the `values` list of the response. -/
structure FetchEnv where
  serviceAvailable : Bool
  remoteResult : Except String (List (List String))

/-- `fetch_internship_data` (app.py lines 133-191): failure to obtain
the service returns the empty frame (line 140); any exception from
the remote call reaches the line-189 handler and returns the empty
frame; otherwise the `values` list is processed. -/
def fetch_internship_data (env : FetchEnv) : DataFrame :=
  if env.serviceAvailable then
    match env.remoteResult with
    | .error _ => DataFrame.empty
    | .ok values => fetch_from_values values
  else DataFrame.empty

/-- The static alias table `column_mapping` of `standardize_columns`
(app.py lines 197-221), in source order. -/
def column_mapping_list : List (String × String) :=
  [("インターン名", "インターン名"),
   ("企業名", "企業名"),
   ("業界", "業界"),
   ("インターン職種", "職種"),
   ("職種", "職種"),
   ("勤務地", "勤務地"),
   ("最寄り駅", "最寄り駅"),
   ("期間", "期間"),
   ("報酬", "報酬"),
   ("交通費", "交通費"),
   ("勤務可能時間", "勤務可能時間"),
   ("勤務日数", "勤務日数"),
   ("勤務時間", "勤務時間"),
   ("選考フロー", "選考フロー"),
   ("応募締切", "応募締切"),
   ("開始予定日", "開始予定日"),
   ("募集人数", "募集人数"),
   ("必須スキル", "必須スキル"),
   ("歓迎スキル", "歓迎スキル"),
   ("形式", "形式"),
   ("募集対象", "募集対象"),
   ("説明", "説明")]

/-- Dictionary lookup `column_mapping[col]` as an option. -/
def rename_map (c : String) : Option String :=
  (column_mapping_list.find? (fun p => p.1 = c)).map (fun p => p.2)

/-- New label of one column under `df.rename(columns=renamed_columns)`
(app.py lines 224-230): a label found in the mapping is replaced by
its image, any other label is kept as it is. -/
def renameLabel (c : String) : String :=
  (rename_map c).getD c

/-- The rename step of `standardize_columns`: `df.rename` relabels
matching columns and leaves the data rows untouched. Building the
`renamed_columns` dictionary only from labels present in the mapping
and skipping the call when it is empty (lines 224-230) has the same
effect as relabelling every column through `renameLabel`. -/
def renameCols (df : DataFrame) : DataFrame :=
  ⟨df.columns.map renameLabel, df.rows⟩

/-- The `required_columns` list of app.py line 233. -/
def required_columns : List String :=
  ["インターン名", "企業名", "業界", "職種", "勤務地", "説明"]

/-- One iteration of the loop at app.py lines 234-236: when the label
is absent, `df[col] = "不明"` appends a new column at the end filled
with the sentinel in every row. -/
def addCol (d : DataFrame) (c : String) : DataFrame :=
  if c ∈ d.columns then d
  else ⟨d.columns ++ [c], d.rows.map (fun r => r ++ [Cell.str "不明"])⟩

/-- The whole required-columns loop of app.py lines 234-236. -/
def addRequired (df : DataFrame) : DataFrame :=
  required_columns.foldl addCol df

/-- `standardize_columns` (app.py lines 194-238): rename the known
labels, then make sure the six required columns exist. -/
def standardize_columns (df : DataFrame) : DataFrame :=
  addRequired (renameCols df)

/-- The canonical field names: the label set `standardize_columns`
normalizes to (the value side of `column_mapping`). -/
def canonical_fields : List String :=
  (column_mapping_list.map (fun p => p.2)).dedup

/-- Rows all as wide as the column list — the shape every pandas
`DataFrame` has by construction. -/
def DataFrame.Rect (df : DataFrame) : Prop :=
  ∀ r ∈ df.rows, r.length = df.columns.length

/-- Rearrange the columns of a grid by an index list `p`: column `q`
of the result is column `p.get q` of the input (with its header
label), the rows rearranged the same way. When `p` enumerates all
positions this is a permutation of the columns. -/
def permuteCols (p : List Nat) (df : DataFrame) : DataFrame :=
  ⟨p.map (fun j => df.columns.getD j ""),
   df.rows.map (fun r => p.map (fun j => r.getD j Cell.nan))⟩

/-- Zero-pad a number to two digits (`strftime` field `%m`/`%d`). -/
def pad2 (n : Nat) : String :=
  if n < 10 then "0" ++ toString n else toString n

/-- Zero-pad a number to four digits (`strftime` field `%Y`). -/
def pad4 (n : Nat) : String :=
  if n < 10 then "000" ++ toString n
  else if n < 100 then "00" ++ toString n
  else if n < 1000 then "0" ++ toString n
  else toString n

/-- `deadline.strftime("%Y-%m-%d")`. -/
def strftimeYMD : Nat × Nat × Nat → String
  | (y, m, d) => pad4 y ++ "-" ++ pad2 m ++ "-" ++ pad2 d

/-- Days since the civil epoch 1970-01-01 (the standard
days-from-civil algorithm); the model of subtracting two
`datetime.date` values and taking `.days`. -/
def daysFromCivil : Nat × Nat × Nat → Int
  | (y, m, d) =>
    let y' : Int := (y : Int) - (if m ≤ 2 then 1 else 0)
    let era : Int := (if 0 ≤ y' then y' else y' - 399) / 400
    let yoe : Int := y' - era * 400
    let mp : Int := ((m : Int) + 9) % 12
    let doy : Int := (153 * mp + 2) / 5 + (d : Int) - 1
    let doe : Int := yoe * 365 + yoe / 4 - yoe / 100 + doy
    era * 146097 + doe - 719468

/-- `format_deadline` (app.py lines 240-256) on the values the
deadline field holds after conversion: `none` is `NaT` (for which
`pd.isna` is true, line 242) and `some` a `Timestamp`. The current
date (`datetime.now().date()`, line 245) is passed explicitly. -/
def format_deadline (deadline : Option (Nat × Nat × Nat))
    (today : Nat × Nat × Nat) : String :=
  match deadline with
  | none => ""
  | some dl =>
    let days_remaining : Int := daysFromCivil dl - daysFromCivil today
    if days_remaining < 0 then
      "<span style=\x27color: gray;\x27>締切済み (" ++ strftimeYMD dl ++ ")</span>"
    else if days_remaining = 0 then
      "<span style=\x27color: red; font-weight: bold;\x27>本日締切 (" ++
        strftimeYMD dl ++ ")</span>"
    else if days_remaining ≤ 7 then
      "<span style=\x27color: red;\x27>あと" ++ toString days_remaining ++ "日 (" ++
        strftimeYMD dl ++ ")</span>"
    else strftimeYMD dl

/-! ### Lemmas about column lookup -/

theorem colIndex_lt_length {cols : List String} {c : String} (h : c ∈ cols) :
    colIndex cols c < cols.length := by
  induction cols with
  | nil => simp at h
  | cons c' rest ih =>
    by_cases hc : c' = c
    · simp [colIndex, hc]
    · rcases List.mem_cons.mp h with h1 | h2
      · exact absurd h1.symm hc
      · simp only [colIndex, if_neg hc, List.length_cons]
        exact Nat.succ_lt_succ (ih h2)

theorem colIndex_of_not_mem {cols : List String} {c : String} (h : c ∉ cols) :
    colIndex cols c = cols.length := by
  induction cols with
  | nil => rfl
  | cons c' rest ih =>
    have hc : c' ≠ c := fun he => h (by rw [he]; exact List.mem_cons_self c rest)
    have h2 : c ∉ rest := fun hm => h (List.mem_cons_of_mem _ hm)
    simp [colIndex, if_neg hc, ih h2]

theorem getElem?_colIndex {cols : List String} {c : String} (h : c ∈ cols) :
    cols[colIndex cols c]? = some c := by
  induction cols with
  | nil => simp at h
  | cons c' rest ih =>
    by_cases hc : c' = c
    · simp [colIndex, hc]
    · have h2 : c ∈ rest := by
        rcases List.mem_cons.mp h with h1 | h2
        · exact absurd h1.symm hc
        · exact h2
      simp [colIndex, if_neg hc, ih h2]

theorem colIndex_append_left {l₁ l₂ : List String} {c : String} (h : c ∈ l₁) :
    colIndex (l₁ ++ l₂) c = colIndex l₁ c := by
  induction l₁ with
  | nil => simp at h
  | cons c' rest ih =>
    by_cases hc : c' = c
    · simp [colIndex, hc]
    · have h2 : c ∈ rest := by
        rcases List.mem_cons.mp h with h1 | h2
        · exact absurd h1.symm hc
        · exact h2
      simp [colIndex, if_neg hc, ih h2]

theorem colIndex_append_of_not_mem {l₁ l₂ : List String} {c : String} (h : c ∉ l₁) :
    colIndex (l₁ ++ l₂) c = l₁.length + colIndex l₂ c := by
  induction l₁ with
  | nil => simp [colIndex]
  | cons c' rest ih =>
    have hc : c' ≠ c := fun he => h (by rw [he]; exact List.mem_cons_self c rest)
    have h2 : c ∉ rest := fun hm => h (List.mem_cons_of_mem _ hm)
    show (if c' = c then 0 else colIndex (rest ++ l₂) c + 1) = _
    rw [if_neg hc, ih h2]
    simp only [List.length_cons]
    omega

theorem colIndex_map_congr {cols : List String} {f : String → String} {c : String}
    (h : ∀ x, f x = c ↔ x = c) : colIndex (cols.map f) c = colIndex cols c := by
  induction cols with
  | nil => rfl
  | cons c' rest ih =>
    by_cases hc : c' = c
    · subst hc
      simp [colIndex, (h c').mpr rfl]
    · have hf : f c' ≠ c := fun he => hc ((h c').mp he)
      simp [colIndex, if_neg hc, if_neg hf, ih]

theorem eq_colIndex_of_getElem? {cols : List String} {c : String} {k : Nat}
    (nd : cols.Nodup) (hk : cols[k]? = some c) : k = colIndex cols c := by
  induction cols generalizing k with
  | nil => simp at hk
  | cons c' rest ih =>
    rcases List.nodup_cons.mp nd with ⟨hnot, nd'⟩
    cases k with
    | zero =>
      simp only [List.getElem?_cons_zero, Option.some.injEq] at hk
      simp [colIndex, hk]
    | succ k =>
      simp only [List.getElem?_cons_succ] at hk
      have hmem : c ∈ rest := by
        rcases List.getElem?_eq_some_iff.mp hk with ⟨hlt, he⟩
        exact he ▸ List.getElem_mem hlt
      have hc : c' ≠ c := fun he => hnot (he ▸ hmem)
      simp [colIndex, if_neg hc, ih nd' hk]

theorem mem_of_colOccurs_pos {cols : List String} {c : String}
    (h : 0 < colOccurs cols c) : c ∈ cols := by
  have h' : 0 < (cols.filter (fun x => x = c)).length := h
  obtain ⟨x, hx⟩ := List.exists_mem_of_length_pos h'
  rcases List.mem_filter.mp hx with ⟨hmem, hpred⟩
  have hxc : x = c := by simpa using hpred
  exact hxc ▸ hmem

/-! ### Lemmas about row padding and frame construction -/

theorem padRow_length {w : Nat} {r : List String} (h : r.length ≤ w) :
    (padRow w r).length = w := by
  simp [padRow]
  omega

theorem getElem?_padRow_str {w : Nat} {r : List String} {j : Nat} {s : String}
    (hj : r[j]? = some s) : (padRow w r)[j]? = some (Cell.str s) := by
  have hlt : j < r.length := (List.getElem?_eq_some_iff.mp hj).1
  rw [padRow, List.getElem?_append_left (by simpa using hlt)]
  simp [hj]

theorem getElem?_padRow_nan {w : Nat} {r : List String} {j : Nat}
    (h1 : r.length ≤ j) (h2 : j < w) : (padRow w r)[j]? = some Cell.nan := by
  rw [padRow, List.getElem?_append_right (by simpa using h1), List.length_map]
  exact List.getElem?_replicate_of_lt (by omega)

theorem mkDataFrame_ok {rows : List (List String)} {headers : List String}
    (wf : rows = [] ∨ maxWidth rows = headers.length) :
    mkDataFrame rows headers = .ok ⟨headers, rows.map (padRow headers.length)⟩ := by
  rcases wf with rfl | hw
  · rfl
  · rw [mkDataFrame]
    by_cases he : rows = []
    · subst he
      rfl
    · rw [if_neg he, if_pos hw]

/-! ### Lemmas about date conversion -/

theorem dateConvert_eq (P : String → Option (Nat × Nat × Nat)) (df : DataFrame) :
    dateConvert P df = ⟨df.columns, df.rows.map (applyDateCols P df.columns)⟩ := by
  unfold dateConvert
  by_cases h1 : colOccurs df.columns "応募締切" = 1
  · rw [if_pos h1]
    have hcc : (convertColumn P df "応募締切").columns = df.columns := rfl
    rw [hcc]
    by_cases h2 : colOccurs df.columns "開始予定日" = 1
    · rw [if_pos h2]
      show DataFrame.mk df.columns ((df.rows.map _).map _) = _
      rw [List.map_map]
      refine congrArg (DataFrame.mk df.columns) (List.map_congr_left ?_)
      intro r _
      simp only [Function.comp_apply, applyDateCols, if_pos h1, if_pos h2]
      rfl
    · rw [if_neg h2]
      refine congrArg (DataFrame.mk df.columns) (List.map_congr_left ?_)
      intro r _
      simp [applyDateCols, h1, h2]
  · rw [if_neg h1]
    cases df with
    | mk cols rows =>
      simp only at h1 ⊢
      have hmap : rows.map (applyDateCols P cols) = rows.map (fun r => r) :=
        List.map_congr_left (fun r _ => by simp [applyDateCols, h1])
      rw [hmap, List.map_id']

theorem fetch_from_values_cons {P : String → Option (Nat × Nat × Nat)}
    {headers : List String} {rows : List (List String)}
    (wf : rows = [] ∨ maxWidth rows = headers.length) :
    fetch_from_values_with P (headers :: rows) =
      ⟨headers, rows.map (processRow P headers)⟩ := by
  have h := mkDataFrame_ok wf
  simp only [fetch_from_values_with, h, dateConvert_eq, List.map_map]
  rfl

theorem colIndex_deadline_ne_start {cols : List String}
    (h1 : 0 < colOccurs cols "応募締切") (h2 : 0 < colOccurs cols "開始予定日") :
    colIndex cols "応募締切" ≠ colIndex cols "開始予定日" := by
  intro he
  have e1 := getElem?_colIndex (mem_of_colOccurs_pos h1)
  have e2 := getElem?_colIndex (mem_of_colOccurs_pos h2)
  rw [he, e2] at e1
  exact absurd e1 (by decide)

theorem applyDateCols_getElem?_nan {P : String → Option (Nat × Nat × Nat)}
    {cols : List String} {row : List Cell} {k : Nat}
    (hk : row[k]? = some Cell.nan) :
    (applyDateCols P cols row)[k]? = some Cell.nan := by
  have hset : ∀ (name : String) (r : List Cell), r[k]? = some Cell.nan →
      (setDateCell P cols name r)[k]? = some Cell.nan := by
    intro name r hr
    have hlt : k < r.length := (List.getElem?_eq_some_iff.mp hr).1
    rw [setDateCell]
    rcases eq_or_ne (colIndex cols name) k with he | hne
    · rw [he, List.getElem?_set_self hlt]
      have hgd : r.getD k Cell.nan = Cell.nan := by
        rw [List.getD_eq_getElem?_getD, hr]
        rfl
      rw [hgd]
      rfl
    · rw [List.getElem?_set_ne hne]
      exact hr
  rw [applyDateCols]
  by_cases h1 : colOccurs cols "応募締切" = 1
  · rw [if_pos h1]
    by_cases h2 : colOccurs cols "開始予定日" = 1
    · rw [if_pos h2]
      exact hset _ _ (hset _ _ hk)
    · rw [if_neg h2]
      exact hset _ _ hk
  · rw [if_neg h1]
    exact hk

theorem applyDateCols_deadline {P : String → Option (Nat × Nat × Nat)}
    {cols : List String} {row : List Cell} {s : Cell}
    (h1 : colOccurs cols "応募締切" = 1)
    (hs : row[colIndex cols "応募締切"]? = some s) :
    (applyDateCols P cols row)[colIndex cols "応募締切"]? = some (coerceCellWith P s) := by
  have hlt : colIndex cols "応募締切" < row.length := (List.getElem?_eq_some_iff.mp hs).1
  have hgd : row.getD (colIndex cols "応募締切") Cell.nan = s := by
    rw [List.getD_eq_getElem?_getD, hs]
    rfl
  rw [applyDateCols, if_pos h1]
  by_cases h2 : colOccurs cols "開始予定日" = 1
  · rw [if_pos h2]
    have hne : colIndex cols "開始予定日" ≠ colIndex cols "応募締切" :=
      (colIndex_deadline_ne_start (by omega) (by omega)).symm
    rw [setDateCell, List.getElem?_set_ne hne, setDateCell,
      List.getElem?_set_self hlt, hgd]
  · rw [if_neg h2]
    rw [setDateCell, List.getElem?_set_self hlt, hgd]

theorem applyDateCols_start {P : String → Option (Nat × Nat × Nat)}
    {cols : List String} {row : List Cell} {s : Cell}
    (h1 : colOccurs cols "応募締切" = 1) (h2 : colOccurs cols "開始予定日" = 1)
    (hs : row[colIndex cols "開始予定日"]? = some s) :
    (applyDateCols P cols row)[colIndex cols "開始予定日"]? = some (coerceCellWith P s) := by
  have hlt : colIndex cols "開始予定日" < row.length := (List.getElem?_eq_some_iff.mp hs).1
  have hne : colIndex cols "応募締切" ≠ colIndex cols "開始予定日" :=
    colIndex_deadline_ne_start (by omega) (by omega)
  rw [applyDateCols, if_pos h1, if_pos h2]
  rw [setDateCell, List.getElem?_set_self (by simpa [setDateCell] using hlt)]
  have hgd : (setDateCell P cols "応募締切" row).getD (colIndex cols "開始予定日") Cell.nan = s := by
    rw [setDateCell, List.getD_eq_getElem?_getD, List.getElem?_set_ne hne, hs]
    rfl
  rw [hgd]

theorem applyDateCols_other {P : String → Option (Nat × Nat × Nat)}
    {cols : List String} {row : List Cell} {k : Nat}
    (hk1 : k ≠ colIndex cols "応募締切") (hk2 : k ≠ colIndex cols "開始予定日") :
    (applyDateCols P cols row)[k]? = row[k]? := by
  rw [applyDateCols]
  by_cases h1 : colOccurs cols "応募締切" = 1
  · rw [if_pos h1]
    by_cases h2 : colOccurs cols "開始予定日" = 1
    · rw [if_pos h2, setDateCell, List.getElem?_set_ne (Ne.symm hk2), setDateCell,
        List.getElem?_set_ne (Ne.symm hk1)]
    · rw [if_neg h2, setDateCell, List.getElem?_set_ne (Ne.symm hk1)]
  · rw [if_neg h1]

/-! ### Lemmas about the required-columns loop -/

theorem addCol_rows_length (d : DataFrame) (c : String) :
    (addCol d c).rows.length = d.rows.length := by
  rw [addCol]
  split <;> simp

theorem foldlAdd_rows_length (l : List String) (d : DataFrame) :
    (l.foldl addCol d).rows.length = d.rows.length := by
  induction l generalizing d with
  | nil => rfl
  | cons c l ih => rw [List.foldl_cons, ih, addCol_rows_length]

theorem addCol_rect {d : DataFrame} (h : d.Rect) (c : String) : (addCol d c).Rect := by
  rw [addCol]
  split
  · exact h
  · intro r hr
    rcases List.mem_map.mp hr with ⟨r0, hr0, rfl⟩
    simp [h r0 hr0]

theorem foldlAdd_rect {l : List String} {d : DataFrame} (h : d.Rect) :
    (l.foldl addCol d).Rect := by
  induction l generalizing d with
  | nil => exact h
  | cons c l ih => exact ih (addCol_rect h c)

theorem mem_addCol_columns {d : DataFrame} {c' : String} (c : String)
    (h : c' ∈ d.columns) : c' ∈ (addCol d c).columns := by
  rw [addCol]
  split
  · exact h
  · exact List.mem_append_left _ h

theorem mem_foldlAdd_columns {l : List String} {d : DataFrame} {c' : String}
    (h : c' ∈ d.columns) : c' ∈ (l.foldl addCol d).columns := by
  induction l generalizing d with
  | nil => exact h
  | cons c l ih => exact ih (mem_addCol_columns c h)

theorem self_mem_addCol_columns (d : DataFrame) (c : String) :
    c ∈ (addCol d c).columns := by
  by_cases h : c ∈ d.columns
  · rw [addCol, if_pos h]
    exact h
  · rw [addCol, if_neg h]
    exact List.mem_append_right _ (by simp)

theorem mem_foldlAdd_of_mem {l : List String} {d : DataFrame} {c : String}
    (h : c ∈ l) : c ∈ (l.foldl addCol d).columns := by
  induction l generalizing d with
  | nil => simp at h
  | cons c' l ih =>
    rw [List.foldl_cons]
    rcases List.mem_cons.mp h with rfl | h2
    · exact mem_foldlAdd_columns (self_mem_addCol_columns d c)
    · exact ih h2

theorem addCol_getCell {d : DataFrame} {c' : String} (hrect : d.Rect)
    (h : c' ∈ d.columns) (c : String) (i : Nat) :
    (addCol d c).getCell i c' = d.getCell i c' := by
  by_cases hc : c ∈ d.columns
  · rw [addCol, if_pos hc]
  · rw [addCol, if_neg hc]
    have hmem : c' ∈ d.columns ++ [c] := List.mem_append_left _ h
    cases hri : d.rows[i]? with
    | none => simp [DataFrame.getCell, hmem, h, hri]
    | some r =>
      have hrmem : r ∈ d.rows := by
        rcases List.getElem?_eq_some_iff.mp hri with ⟨hlt, he⟩
        exact he ▸ List.getElem_mem hlt
      have hlen : colIndex d.columns c' < r.length := by
        rw [hrect r hrmem]
        exact colIndex_lt_length h
      simp only [DataFrame.getCell, hmem, h, if_pos, List.getElem?_map, hri,
        Option.map_some', Option.some_bind, colIndex_append_left h]
      exact List.getElem?_append_left hlen

theorem foldlAdd_getCell {l : List String} {d : DataFrame} {c' : String}
    (hrect : d.Rect) (h : c' ∈ d.columns) (i : Nat) :
    (l.foldl addCol d).getCell i c' = d.getCell i c' := by
  induction l generalizing d with
  | nil => rfl
  | cons c l ih =>
    rw [List.foldl_cons, ih (addCol_rect hrect c) (mem_addCol_columns c h),
      addCol_getCell hrect h c i]

theorem foldlAdd_getCell_new {l : List String} {d : DataFrame} {c : String}
    (hrect : d.Rect) (hnot : c ∉ d.columns) (hc : c ∈ l) {i : Nat}
    (hi : i < d.rows.length) :
    (l.foldl addCol d).getCell i c = some (Cell.str "不明") := by
  induction l generalizing d with
  | nil => simp at hc
  | cons c' l ih =>
    rw [List.foldl_cons]
    by_cases hcd : c' ∈ d.columns
    · rw [addCol, if_pos hcd]
      have hcc : c ≠ c' := fun he => hnot (he ▸ hcd)
      have hcl : c ∈ l := by
        rcases List.mem_cons.mp hc with he | h2
        · exact absurd he hcc
        · exact h2
      exact ih hrect hnot hcl hi
    · rw [addCol, if_neg hcd]
      by_cases hce : c = c'
      · subst hce
        have hrect' : DataFrame.Rect
            ⟨d.columns ++ [c], d.rows.map (fun r => r ++ [Cell.str "不明"])⟩ := by
          intro r hr
          rcases List.mem_map.mp hr with ⟨r0, hr0, rfl⟩
          simp [hrect r0 hr0]
        have hmem' : c ∈ (⟨d.columns ++ [c],
            d.rows.map (fun r => r ++ [Cell.str "不明"])⟩ : DataFrame).columns :=
          List.mem_append_right _ (by simp)
        rw [foldlAdd_getCell hrect' hmem' i]
        obtain ⟨r, hri⟩ : ∃ r, d.rows[i]? = some r := by
          cases hri : d.rows[i]? with
          | none =>
            rw [List.getElem?_eq_none_iff] at hri
            omega
          | some r => exact ⟨r, rfl⟩
        have hrmem : r ∈ d.rows := by
          rcases List.getElem?_eq_some_iff.mp hri with ⟨hlt, he⟩
          exact he ▸ List.getElem_mem hlt
        have hrlen : r.length = d.columns.length := hrect r hrmem
        simp only [DataFrame.getCell, hmem', if_pos, List.getElem?_map, hri,
          Option.map_some', Option.some_bind]
        rw [colIndex_append_of_not_mem hnot]
        have h0 : colIndex [c] c = 0 := by simp [colIndex]
        rw [h0, Nat.add_zero, ← hrlen]
        exact List.getElem?_concat_length r _
      · have hcl : c ∈ l := by
          rcases List.mem_cons.mp hc with he | h2
          · exact absurd he hce
          · exact h2
        have hnot' : c ∉ d.columns ++ [c'] := by
          intro hm
          rcases List.mem_append.mp hm with h1 | h1
          · exact hnot h1
          · exact hce (List.mem_singleton.mp h1)
        have hrect' : DataFrame.Rect
            ⟨d.columns ++ [c'], d.rows.map (fun r => r ++ [Cell.str "不明"])⟩ := by
          intro r hr
          rcases List.mem_map.mp hr with ⟨r0, hr0, rfl⟩
          simp [hrect r0 hr0]
        have hi' : i < (⟨d.columns ++ [c'],
            d.rows.map (fun r => r ++ [Cell.str "不明"])⟩ : DataFrame).rows.length := by
          simpa using hi
        exact ih hrect' hnot' hcl hi'

/-! ### Lemmas about the rename step -/

theorem rename_map_value_fixed :
    ∀ p ∈ column_mapping_list, rename_map p.2 = some p.2 := by decide

theorem rename_map_idem {x y : String} (h : rename_map x = some y) :
    rename_map y = some y := by
  rw [rename_map] at h
  rcases Option.map_eq_some'.mp h with ⟨p, hp, hpy⟩
  have hmem := List.mem_of_find?_eq_some hp
  exact hpy ▸ rename_map_value_fixed p hmem

theorem renameLabel_of_none {c : String} (h : rename_map c = none) :
    renameLabel c = c := by
  rw [renameLabel, h]
  rfl

theorem renameLabel_eq_iff_of_none {c : String} (h : rename_map c = none) :
    ∀ x, renameLabel x = c ↔ x = c := by
  intro x
  constructor
  · intro hx
    cases hrm : rename_map x with
    | none =>
      rw [renameLabel, hrm] at hx
      exact hx
    | some y =>
      rw [renameLabel, hrm] at hx
      simp only [Option.getD_some] at hx
      have hy := rename_map_idem hrm
      rw [hx, h] at hy
      exact Option.noConfusion hy
  · intro hx
    subst hx
    exact renameLabel_of_none h

theorem canonical_renameLabel : ∀ c ∈ canonical_fields, renameLabel c = c := by decide

theorem required_recognized : ∀ c ∈ required_columns, (rename_map c).isSome := by decide

theorem renameCols_rect {df : DataFrame} (h : df.Rect) : (renameCols df).Rect := by
  intro r hr
  simpa [renameCols] using h r hr

theorem renameCols_eq_self {df : DataFrame}
    (h : ∀ c ∈ df.columns, c ∈ canonical_fields) : renameCols df = df := by
  cases df with
  | mk cols rows =>
    have h1 : cols.map renameLabel = cols := by
      have h2 : cols.map renameLabel = cols.map (fun c => c) :=
        List.map_congr_left (fun c hc => canonical_renameLabel c (h c hc))
      rw [h2, List.map_id']
    simp only [renameCols]
    rw [h1]

theorem renameCols_getCell_unrecognized {df : DataFrame} {c : String}
    (h : rename_map c = none) (i : Nat) :
    (renameCols df).getCell i c = df.getCell i c := by
  have hiff := renameLabel_eq_iff_of_none h
  have hmem : c ∈ (renameCols df).columns ↔ c ∈ df.columns := by
    simp only [renameCols, List.mem_map]
    constructor
    · rintro ⟨x, hx, hfx⟩
      exact ((hiff x).mp hfx) ▸ hx
    · intro hc
      exact ⟨c, hc, (hiff c).mpr rfl⟩
  by_cases hc : c ∈ df.columns
  · rw [DataFrame.getCell, DataFrame.getCell, if_pos (hmem.mpr hc), if_pos hc]
    show (df.rows[i]?.bind fun r => r[colIndex (df.columns.map renameLabel) c]?) =
      (df.rows[i]?.bind fun r => r[colIndex df.columns c]?)
    rw [colIndex_map_congr hiff]
  · rw [DataFrame.getCell, DataFrame.getCell, if_neg (fun hm => hc (hmem.mp hm)),
      if_neg hc]

/-! ### Lemmas about column permutation -/

theorem permute_row_lookup {cols : List String} {r : List Cell} {p : List Nat}
    {c : String} (hnd : cols.Nodup) (hp : ∀ k ∈ p, k < cols.length)
    (hmem : colIndex cols c ∈ p) (hc : c ∈ cols) (hr : r.length = cols.length) :
    (p.map (fun j => r.getD j Cell.nan))[colIndex
      (p.map (fun j => cols.getD j "")) c]? = r[colIndex cols c]? := by
  induction p with
  | nil => simp at hmem
  | cons k p ih =>
    have hk : k < cols.length := hp k (List.mem_cons_self k p)
    by_cases hek : k = colIndex cols c
    · have hck : cols.getD k "" = c := by
        rw [hek, List.getD_eq_getElem?_getD, getElem?_colIndex hc]
        rfl
      simp only [List.map_cons]
      rw [show colIndex (cols.getD k "" :: List.map (fun j => cols.getD j "") p) c = 0
        from by rw [hck]; simp [colIndex]]
      simp only [List.getElem?_cons_zero]
      have hlt : colIndex cols c < r.length := by
        rw [hr]
        exact colIndex_lt_length hc
      rw [hek, List.getD_eq_getElem?_getD, List.getElem?_eq_getElem hlt]
      rfl
    · have hck : cols.getD k "" ≠ c := by
        intro he
        apply hek
        apply eq_colIndex_of_getElem? hnd
        rw [List.getD_eq_getElem?_getD, List.getElem?_eq_getElem hk] at he
        simp only [Option.getD_some] at he
        rw [List.getElem?_eq_getElem hk]
        exact congrArg some he
      have hmem' : colIndex cols c ∈ p := by
        rcases List.mem_cons.mp hmem with he | h2
        · exact absurd he.symm hek
        · exact h2
      have hp' : ∀ j ∈ p, j < cols.length := fun j hj => hp j (List.mem_cons_of_mem _ hj)
      simp only [List.map_cons]
      rw [show colIndex (cols.getD k "" :: List.map (fun j => cols.getD j "") p) c =
        colIndex (List.map (fun j => cols.getD j "") p) c + 1
        from by simp only [colIndex]; rw [if_neg hck]]
      simp only [List.getElem?_cons_succ]
      exact ih hp' hmem'

theorem permuteCols_columns_sub {df : DataFrame} {p : List Nat}
    (hp : ∀ k ∈ p, k < df.columns.length) :
    ∀ c ∈ (permuteCols p df).columns, c ∈ df.columns := by
  intro c hcmem
  rcases List.mem_map.mp hcmem with ⟨j, hj, rfl⟩
  have hjlt := hp j hj
  rw [List.getD_eq_getElem?_getD, List.getElem?_eq_getElem hjlt]
  simp only [Option.getD_some]
  exact List.getElem_mem hjlt

theorem permuteCols_rect (p : List Nat) (df : DataFrame) : (permuteCols p df).Rect := by
  intro r hr
  rcases List.mem_map.mp hr with ⟨r0, hr0, rfl⟩
  simp [permuteCols]

theorem permuteCols_getCell {df : DataFrame} {p : List Nat} {c : String} (i : Nat)
    (hnd : df.columns.Nodup) (hrect : df.Rect)
    (hp : ∀ k ∈ p, k < df.columns.length) (hmem : colIndex df.columns c ∈ p)
    (hc : c ∈ df.columns) :
    (permuteCols p df).getCell i c = df.getCell i c := by
  have hcmem : c ∈ (permuteCols p df).columns := by
    simp only [permuteCols, List.mem_map]
    refine ⟨colIndex df.columns c, hmem, ?_⟩
    rw [List.getD_eq_getElem?_getD, getElem?_colIndex hc]
    rfl
  rw [DataFrame.getCell, DataFrame.getCell, if_pos hcmem, if_pos hc]
  show ((df.rows.map (fun r => p.map (fun j => r.getD j Cell.nan)))[i]?.bind
    (fun r => r[colIndex (p.map (fun j => df.columns.getD j "")) c]?)) = _
  rw [List.getElem?_map]
  cases hri : df.rows[i]? with
  | none => rfl
  | some r =>
    simp only [Option.map_some', Option.some_bind]
    have hrmem : r ∈ df.rows := by
      rcases List.getElem?_eq_some_iff.mp hri with ⟨hlt, he⟩
      exact he ▸ List.getElem_mem hlt
    exact permute_row_lookup hnd hp hmem hc (hrect r hrmem)

/-! ### Lemmas about deadline formatting -/

theorem strftimeYMD_length_pos (d : Nat × Nat × Nat) : 0 < (strftimeYMD d).length := by
  obtain ⟨y, m, dd⟩ := d
  have h1 : ("-" : String).length = 1 := rfl
  simp only [strftimeYMD, String.length_append, h1]
  omega

theorem string_ne_empty_of_length_pos {s : String} (h : 0 < s.length) : s ≠ "" := by
  intro he
  rw [he] at h
  simp at h

theorem addCol_rows_getElem? {d : DataFrame} {i j : Nat} (hrect : d.Rect)
    (hj : j < d.columns.length) (c : String) :
    ((addCol d c).rows[i]?.bind (fun r => r[j]?)) =
      (d.rows[i]?.bind (fun r => r[j]?)) := by
  by_cases hc : c ∈ d.columns
  · rw [addCol, if_pos hc]
  · rw [addCol, if_neg hc]
    show ((d.rows.map (fun r => r ++ [Cell.str "不明"]))[i]?.bind (fun r => r[j]?)) = _
    rw [List.getElem?_map]
    cases hri : d.rows[i]? with
    | none => rfl
    | some r =>
      simp only [Option.map_some', Option.some_bind]
      have hrmem : r ∈ d.rows := by
        rcases List.getElem?_eq_some_iff.mp hri with ⟨hlt, he⟩
        exact he ▸ List.getElem_mem hlt
      exact List.getElem?_append_left (by rw [hrect r hrmem]; exact hj)

theorem foldlAdd_rows_getElem? {l : List String} {d : DataFrame} {i j : Nat}
    (hrect : d.Rect) (hj : j < d.columns.length) :
    ((l.foldl addCol d).rows[i]?.bind (fun r => r[j]?)) =
      (d.rows[i]?.bind (fun r => r[j]?)) := by
  induction l generalizing d with
  | nil => rfl
  | cons c l ih =>
    rw [List.foldl_cons]
    have hrect' := addCol_rect hrect c
    have hj' : j < (addCol d c).columns.length := by
      rw [addCol]
      split
      · exact hj
      · show j < (d.columns ++ [c]).length
        simp only [List.length_append]
        omega
    rw [ih hrect' hj', addCol_rows_getElem? hrect hj c]

/-! ### Claims -/

/-- C1, counterexample. The claim promises one output record for
every header-plus-one-data-row grid, but pandas infers the column
count from the widest data row and raises `ValueError` whenever it
differs from the header length in either direction; the handler
returns the empty frame and the record is lost. Both a data row wider
than the header and a grid whose every data row is narrower than the
header yield zero records instead of one. -/
theorem C1_counterexample :
    ((fetch_from_values [["企業名"], ["Acme", "extra"]]).rows.length = 0 ∧
     ¬(fetch_from_values [["企業名"], ["Acme", "extra"]]).rows.length = 1) ∧
    ((fetch_from_values [["業界", "職種"], ["IT"]]).rows.length = 0 ∧
     ¬(fetch_from_values [["業界", "職種"], ["IT"]]).rows.length = 1) :=
  ⟨⟨rfl, by decide⟩, ⟨rfl, by decide⟩⟩

/-- C1, amended. A grid with zero rows yields the empty frame, and a
header row with zero data rows yields zero records. A header row
followed by `N` data rows yields exactly `N` records (header
excluded, no data row dropped or merged) provided the widest data row
is exactly as wide as the header row — the condition under which
pandas accepts the grid. Otherwise (widest data row wider or narrower
than the header) the `ValueError` reaches the line-189 handler and
the whole fetch returns the empty table. All of this holds for any
per-cell date parser `P`. -/
theorem C1_record_count :
    (∀ P : String → Option (Nat × Nat × Nat),
      fetch_from_values_with P [] = DataFrame.empty) ∧
    (∀ (P : String → Option (Nat × Nat × Nat)) (headers : List String),
      (fetch_from_values_with P [headers]).rows.length = 0) ∧
    (∀ (P : String → Option (Nat × Nat × Nat)) (headers : List String)
      (rows : List (List String)),
      maxWidth rows = headers.length →
      (fetch_from_values_with P (headers :: rows)).rows.length = rows.length) := by
  refine ⟨fun P => rfl, ?_, ?_⟩
  · intro P headers
    rw [fetch_from_values_cons (Or.inl rfl)]
    rfl
  · intro P headers rows hw
    rw [fetch_from_values_cons (Or.inr hw)]
    simp

/-- C1, witness. -/
theorem C1_record_count_witness :
    maxWidth [["Acme", "2024-05-01"]] = (["企業名", "応募締切"] : List String).length ∧
    (fetch_from_values_with parseDate
      [["企業名", "応募締切"], ["Acme", "2024-05-01"]]).rows.length = 1 :=
  ⟨by decide,
   C1_record_count.2.2 parseDate ["企業名", "応募締切"] [["Acme", "2024-05-01"]]
     (by decide)⟩

/-- C2, counterexample. At this grid — its only data row shorter than
the header — pandas raises ("2 columns passed, passed data had 1
columns") and the handler returns the empty frame: materialization
does not succeed, and no field of the record equals the "不明"
sentinel because the record does not exist at all. -/
theorem C2_counterexample :
    (fetch_from_values [["企業名", "業界"], ["Acme"]]).rows.length = 0 ∧
    (fetch_from_values [["企業名", "業界"], ["Acme"]]).getCell 0 "業界" = none ∧
    ¬(fetch_from_values [["企業名", "業界"], ["Acme"]]).getCell 0 "業界" =
      some (Cell.str "不明") :=
  ⟨rfl, by decide, by decide⟩

/-- C2, amended. A data row shorter than the header row materializes
only when some data row spans the full header width (pandas infers
the column count from the widest row): then the record count is
preserved, there is no index-out-of-range failure, and each missing
trailing field of a short row equals the `NaN` missing-value marker —
not the "不明" sentinel. When every data row is narrower than the
header, pandas raises and the whole fetch returns the empty table
(the counterexample). -/
theorem C2_short_rows :
    ∀ (P : String → Option (Nat × Nat × Nat)) (headers : List String)
      (rows : List (List String)) (i j : Nat) (r : List String),
      maxWidth rows = headers.length →
      rows[i]? = some r → r.length ≤ j → j < headers.length →
      ((fetch_from_values_with P (headers :: rows)).rows.length = rows.length ∧
       ((fetch_from_values_with P (headers :: rows)).rows[i]?.bind
         (fun row => row[j]?)) = some Cell.nan) := by
  intro P headers rows i j r hw hi hj1 hj2
  rw [fetch_from_values_cons (Or.inr hw)]
  constructor
  · simp
  · show ((rows.map (processRow P headers))[i]?.bind (fun row => row[j]?)) =
      some Cell.nan
    rw [List.getElem?_map, hi]
    simp only [Option.map_some', Option.some_bind]
    show (applyDateCols P headers (padRow headers.length r))[j]? = some Cell.nan
    exact applyDateCols_getElem?_nan (getElem?_padRow_nan hj1 hj2)

/-- C2, witness. -/
theorem C2_short_rows_witness :
    (maxWidth [["Acme", "IT"], ["Beta"]] = (["企業名", "業界"] : List String).length ∧
     ([["Acme", "IT"], ["Beta"]] : List (List String))[1]? = some ["Beta"]) ∧
    ((fetch_from_values_with parseDate
       [["企業名", "業界"], ["Acme", "IT"], ["Beta"]]).rows.length = 2 ∧
     ((fetch_from_values_with parseDate
       [["企業名", "業界"], ["Acme", "IT"], ["Beta"]]).rows[1]?.bind
       (fun row => row[1]?)) = some Cell.nan) :=
  ⟨⟨by decide, by decide⟩,
   C2_short_rows parseDate ["企業名", "業界"] [["Acme", "IT"], ["Beta"]] 1 1 ["Beta"]
     (by decide) (by decide) (by decide) (by decide)⟩

/-- C3, counterexample. The claim promises the unparseable/absent
marker for a malformed cell of either date field, but when the header
lacks the `応募締切` column the `KeyError` aborts the whole `try`
block and the `開始予定日` column is never converted: its malformed
text survives as raw text instead of the marker (whatever parser the
library uses — the conversion never runs). -/
theorem C3_counterexample :
    (fetch_from_values [["開始予定日"], ["not a date"]]).getCell 0 "開始予定日" =
      some (Cell.str "not a date") ∧
    ¬(fetch_from_values [["開始予定日"], ["not a date"]]).getCell 0 "開始予定日" =
      some Cell.nan :=
  ⟨by decide, by decide⟩

/-- C3, amended. For the library's per-cell date parser — abstracted
as `P`, since `pd.to_datetime` accepts many formats beyond the ISO
form — conversion is elementwise and never raises, and rows are
processed independently: record `i` is a function of data row `i`
alone. On an accepted grid whose header contains the `応募締切` label
exactly once, a `応募締切` cell whose text `P` does not parse (the
empty cell included) becomes the `NaT` marker; the same holds for
`開始予定日` when additionally that label occurs exactly once; and no
position other than the two date columns is touched. When `応募締切`
is missing, the `KeyError` aborts the `try` block and neither date
column is converted (the counterexample), still without raising. -/
theorem C3_date_coercion :
    (∀ (P : String → Option (Nat × Nat × Nat)) (headers : List String)
      (rows : List (List String)),
      rows = [] ∨ maxWidth rows = headers.length →
      (fetch_from_values_with P (headers :: rows)).rows =
        rows.map (processRow P headers)) ∧
    (∀ (P : String → Option (Nat × Nat × Nat)) (headers : List String)
      (rows : List (List String)) (i : Nat) (r : List String) (s : String),
      maxWidth rows = headers.length →
      colOccurs headers "応募締切" = 1 →
      rows[i]? = some r → r[colIndex headers "応募締切"]? = some s →
      P s = none →
      (fetch_from_values_with P (headers :: rows)).getCell i "応募締切" =
        some Cell.nan) ∧
    (∀ (P : String → Option (Nat × Nat × Nat)) (headers : List String)
      (rows : List (List String)) (i : Nat) (r : List String) (s : String),
      maxWidth rows = headers.length →
      colOccurs headers "応募締切" = 1 → colOccurs headers "開始予定日" = 1 →
      rows[i]? = some r → r[colIndex headers "開始予定日"]? = some s →
      P s = none →
      (fetch_from_values_with P (headers :: rows)).getCell i "開始予定日" =
        some Cell.nan) ∧
    (∀ (P : String → Option (Nat × Nat × Nat)) (headers : List String)
      (rows : List (List String)) (i k : Nat) (r : List String),
      maxWidth rows = headers.length →
      rows[i]? = some r →
      k ≠ colIndex headers "応募締切" → k ≠ colIndex headers "開始予定日" →
      ((fetch_from_values_with P (headers :: rows)).rows[i]?.bind
        (fun row => row[k]?)) = (padRow headers.length r)[k]?) := by
  refine ⟨?_, ?_, ?_, ?_⟩
  · intro P headers rows wf
    rw [fetch_from_values_cons wf]
  · intro P headers rows i r s hw h1 hi hs hp
    have hmem : "応募締切" ∈ headers := mem_of_colOccurs_pos (by omega)
    rw [fetch_from_values_cons (Or.inr hw)]
    show (if "応募締切" ∈ headers then
      (rows.map (processRow P headers))[i]?.bind
        (fun row => row[colIndex headers "応募締切"]?) else none) = some Cell.nan
    rw [if_pos hmem, List.getElem?_map, hi]
    simp only [Option.map_some', Option.some_bind]
    show (applyDateCols P headers
      (padRow headers.length r))[colIndex headers "応募締切"]? = some Cell.nan
    rw [applyDateCols_deadline h1 (getElem?_padRow_str hs)]
    simp [coerceCellWith, hp]
  · intro P headers rows i r s hw h1 h2 hi hs hp
    have hmem : "開始予定日" ∈ headers := mem_of_colOccurs_pos (by omega)
    rw [fetch_from_values_cons (Or.inr hw)]
    show (if "開始予定日" ∈ headers then
      (rows.map (processRow P headers))[i]?.bind
        (fun row => row[colIndex headers "開始予定日"]?) else none) = some Cell.nan
    rw [if_pos hmem, List.getElem?_map, hi]
    simp only [Option.map_some', Option.some_bind]
    show (applyDateCols P headers
      (padRow headers.length r))[colIndex headers "開始予定日"]? = some Cell.nan
    rw [applyDateCols_start h1 h2 (getElem?_padRow_str hs)]
    simp [coerceCellWith, hp]
  · intro P headers rows i k r hw hi hk1 hk2
    rw [fetch_from_values_cons (Or.inr hw)]
    show ((rows.map (processRow P headers))[i]?.bind (fun row => row[k]?)) = _
    rw [List.getElem?_map, hi]
    simp only [Option.map_some', Option.some_bind]
    show (applyDateCols P headers (padRow headers.length r))[k]? = _
    exact applyDateCols_other hk1 hk2

/-- C3, witness. -/
theorem C3_date_coercion_witness :
    (parseDate "xx" = none ∧
     maxWidth [["xx", "yy", "Acme"]] =
       (["応募締切", "開始予定日", "企業名"] : List String).length) ∧
    (fetch_from_values_with parseDate [["応募締切", "開始予定日", "企業名"],
      ["xx", "yy", "Acme"]]).getCell 0 "応募締切" = some Cell.nan ∧
    (fetch_from_values_with parseDate [["応募締切", "開始予定日", "企業名"],
      ["xx", "yy", "Acme"]]).getCell 0 "開始予定日" = some Cell.nan ∧
    ((fetch_from_values_with parseDate [["応募締切", "開始予定日", "企業名"],
      ["xx", "yy", "Acme"]]).rows[0]?.bind (fun row => row[2]?)) =
      (padRow 3 ["xx", "yy", "Acme"])[2]? :=
  ⟨⟨by decide, by decide⟩,
   C3_date_coercion.2.1 parseDate ["応募締切", "開始予定日", "企業名"]
     [["xx", "yy", "Acme"]] 0 ["xx", "yy", "Acme"] "xx" (by decide) (by decide)
     (by decide) (by decide) (by decide),
   C3_date_coercion.2.2.1 parseDate ["応募締切", "開始予定日", "企業名"]
     [["xx", "yy", "Acme"]] 0 ["xx", "yy", "Acme"] "yy" (by decide) (by decide)
     (by decide) (by decide) (by decide) (by decide),
   C3_date_coercion.2.2.2 parseDate ["応募締切", "開始予定日", "企業名"]
     [["xx", "yy", "Acme"]] 0 2 ["xx", "yy", "Acme"] (by decide) (by decide)
     (by decide) (by decide)⟩

/-- C4, counterexample. The claim promises every canonical field in
the normalized output, but `standardize_columns` only ensures the six
`required_columns`: the canonical field `報酬` (compensation) is not
added when no input column maps to it. -/
theorem C4_counterexample :
    "報酬" ∈ canonical_fields ∧
    (∀ col ∈ (["企業名"] : List String), renameLabel col ≠ "報酬") ∧
    "報酬" ∉ (standardize_columns ⟨["企業名"], [[Cell.str "Acme"]]⟩).columns :=
  ⟨by decide, by decide, by decide⟩

/-- C4, amended. Only the six required fields (name, company,
industry, role, location, description) carry the guarantee: each of
them is a canonical field, and for every input grid in which no input
column maps to such a field, the field is still present in the
normalized output with every cell equal to the "不明" sentinel,
without the normalizer failing. Canonical fields outside the six may
be absent from the output. -/
theorem C4_missing_required_filled :
    (∀ c ∈ required_columns, c ∈ canonical_fields) ∧
    (∀ (df : DataFrame) (c : String), df.Rect → c ∈ required_columns →
      (∀ col ∈ df.columns, renameLabel col ≠ c) →
      (c ∈ (standardize_columns df).columns ∧
       ∀ i : Nat, i < df.rows.length →
         (standardize_columns df).getCell i c = some (Cell.str "不明"))) := by
  constructor
  · decide
  · intro df c hrect hc hno
    have hnotmem : c ∉ (renameCols df).columns := by
      intro hm
      rcases List.mem_map.mp hm with ⟨x, hx, hfx⟩
      exact hno x hx hfx
    have hrect' := renameCols_rect hrect
    constructor
    · show c ∈ (required_columns.foldl addCol (renameCols df)).columns
      exact mem_foldlAdd_of_mem hc
    · intro i hi
      show (required_columns.foldl addCol (renameCols df)).getCell i c =
        some (Cell.str "不明")
      exact foldlAdd_getCell_new hrect' hnotmem hc hi

/-- C4, witness. -/
theorem C4_missing_required_filled_witness :
    ("業界" ∈ required_columns ∧
     (∀ col ∈ (["企業名"] : List String), renameLabel col ≠ "業界")) ∧
    ("業界" ∈ (standardize_columns ⟨["企業名"], [[Cell.str "Acme"]]⟩).columns ∧
     (standardize_columns ⟨["企業名"], [[Cell.str "Acme"]]⟩).getCell 0 "業界" =
       some (Cell.str "不明")) := by
  have h := C4_missing_required_filled.2 ⟨["企業名"], [[Cell.str "Acme"]]⟩ "業界"
    (fun r hr => by rw [List.mem_singleton.mp hr]; rfl) (by decide) (by decide)
  exact ⟨⟨by decide, by decide⟩, h.1, h.2 0 (by decide)⟩

/-- C5, counterexample. The claim promises that an unrecognized header
label is dropped from the normalized output, but `df.rename` only
relabels matching columns: the unrecognized column `謎の列` is still
present after `standardize_columns`. -/
theorem C5_counterexample :
    rename_map "謎の列" = none ∧
    "謎の列" ∈ (standardize_columns ⟨["謎の列"], [[Cell.str "x"]]⟩).columns :=
  ⟨by decide, by decide⟩

/-- C5, amended. A header label that is not a case-sensitive exact
match against the static alias table is kept unchanged, not dropped:
its column survives normalization with the same label and the same
cells, it is simply never renamed, and it causes no error. -/
theorem C5_unrecognized_kept :
    ∀ (df : DataFrame) (c : String) (i : Nat), df.Rect →
      rename_map c = none → c ∈ df.columns →
      (c ∈ (standardize_columns df).columns ∧
       (standardize_columns df).getCell i c = df.getCell i c) := by
  intro df c i hrect h hc
  have hmem' : c ∈ (renameCols df).columns := by
    simp only [renameCols, List.mem_map]
    exact ⟨c, hc, ((renameLabel_eq_iff_of_none h) c).mpr rfl⟩
  have hrect' := renameCols_rect hrect
  constructor
  · show c ∈ (required_columns.foldl addCol (renameCols df)).columns
    exact mem_foldlAdd_columns hmem'
  · show (required_columns.foldl addCol (renameCols df)).getCell i c = df.getCell i c
    rw [foldlAdd_getCell hrect' hmem' i]
    exact renameCols_getCell_unrecognized h i

/-- C5, witness. -/
theorem C5_unrecognized_kept_witness :
    rename_map "謎の列" = none ∧
    ("謎の列" ∈ (standardize_columns ⟨["謎の列"], [[Cell.str "x"]]⟩).columns ∧
     (standardize_columns ⟨["謎の列"], [[Cell.str "x"]]⟩).getCell 0 "謎の列" =
       (⟨["謎の列"], [[Cell.str "x"]]⟩ : DataFrame).getCell 0 "謎の列") :=
  ⟨by decide,
   C5_unrecognized_kept ⟨["謎の列"], [[Cell.str "x"]]⟩ "謎の列" 0
     (fun r hr => by rw [List.mem_singleton.mp hr]; rfl) (by decide) (by decide)⟩

/-- C6, counterexample. The claim promises the "不明" sentinel for an
empty cell of a canonical field, but `standardize_columns` never
inspects cell contents: an empty-string `企業名` cell stays the empty
string. -/
theorem C6_counterexample :
    (standardize_columns ⟨["企業名"], [[Cell.str ""]]⟩).getCell 0 "企業名" =
      some (Cell.str "") ∧
    ¬(standardize_columns ⟨["企業名"], [[Cell.str ""]]⟩).getCell 0 "企業名" =
      some (Cell.str "不明") :=
  ⟨by decide, by decide⟩

/-- C6, amended. The normalizer substitutes nothing at cell level:
every cell of the input grid passes through `standardize_columns`
unmodified (no trimming, no markup transformation, and no sentinel
substitution for empty or whitespace-only text); the "不明" sentinel
appears only as the fill of a wholly-missing required column. -/
theorem C6_cells_unmodified :
    ∀ (df : DataFrame) (i j : Nat), df.Rect → j < df.columns.length →
      ((standardize_columns df).rows[i]?.bind (fun r => r[j]?)) =
        (df.rows[i]?.bind (fun r => r[j]?)) := by
  intro df i j hrect hj
  have hrect' := renameCols_rect hrect
  have hj' : j < (renameCols df).columns.length := by
    simpa [renameCols] using hj
  show ((required_columns.foldl addCol (renameCols df)).rows[i]?.bind
    (fun r => r[j]?)) = _
  rw [foldlAdd_rows_getElem? hrect' hj']
  rfl

/-- C6, witness. -/
theorem C6_cells_unmodified_witness :
    (0 : Nat) < 1 ∧
    ((standardize_columns ⟨["企業名"], [[Cell.str "  "]]⟩).rows[0]?.bind
      (fun r => r[0]?)) =
      ((⟨["企業名"], [[Cell.str "  "]]⟩ : DataFrame).rows[0]?.bind (fun r => r[0]?)) :=
  ⟨by decide,
   C6_cells_unmodified ⟨["企業名"], [[Cell.str "  "]]⟩ 0 0
     (fun r hr => by rw [List.mem_singleton.mp hr]; rfl) (by decide)⟩

/-- C7. Idempotence and order independence of the normalizer: on a
grid whose header labels are all canonical field names the
normalization is a no-op on row content (every original cell is
unchanged, positionally and under access by canonical field name),
and permuting the input columns together with their header labels
does not change the value obtained when any output record is accessed
by canonical field name. -/
theorem C7_canonical_noop :
    (∀ df : DataFrame, df.Rect → (∀ c ∈ df.columns, c ∈ canonical_fields) →
      ((∀ i j : Nat, j < df.columns.length →
        ((standardize_columns df).rows[i]?.bind (fun r => r[j]?)) =
          (df.rows[i]?.bind (fun r => r[j]?))) ∧
       (∀ c ∈ df.columns, ∀ i : Nat,
        (standardize_columns df).getCell i c = df.getCell i c))) ∧
    (∀ (df : DataFrame) (p : List Nat) (c : String) (i : Nat),
      df.Rect → df.columns.Nodup →
      (∀ c' ∈ df.columns, c' ∈ canonical_fields) →
      p.Perm (List.range df.columns.length) → c ∈ df.columns →
      (standardize_columns (permuteCols p df)).getCell i c =
        (standardize_columns df).getCell i c) := by
  constructor
  · intro df hrect hcanon
    have hre : renameCols df = df := renameCols_eq_self hcanon
    have heq : standardize_columns df = required_columns.foldl addCol df := by
      show addRequired (renameCols df) = _
      rw [hre]
      rfl
    constructor
    · intro i j hj
      rw [heq]
      exact foldlAdd_rows_getElem? hrect hj
    · intro c hc i
      rw [heq]
      exact foldlAdd_getCell hrect hc i
  · intro df p c i hrect hnd hcanon hperm hc
    have hp : ∀ k ∈ p, k < df.columns.length := fun k hk =>
      List.mem_range.mp (hperm.mem_iff.mp hk)
    have hj0 : colIndex df.columns c ∈ p :=
      hperm.mem_iff.mpr (List.mem_range.mpr (colIndex_lt_length hc))
    have hpc : ∀ c' ∈ (permuteCols p df).columns, c' ∈ canonical_fields :=
      fun c' hc' => hcanon c' (permuteCols_columns_sub hp c' hc')
    have hcp : c ∈ (permuteCols p df).columns := by
      simp only [permuteCols, List.mem_map]
      refine ⟨colIndex df.columns c, hj0, ?_⟩
      rw [List.getD_eq_getElem?_getD, getElem?_colIndex hc]
      rfl
    have heq1 : standardize_columns (permuteCols p df) =
        required_columns.foldl addCol (permuteCols p df) := by
      show addRequired (renameCols (permuteCols p df)) = _
      rw [renameCols_eq_self hpc]
      rfl
    have heq2 : standardize_columns df = required_columns.foldl addCol df := by
      show addRequired (renameCols df) = _
      rw [renameCols_eq_self hcanon]
      rfl
    rw [heq1, heq2, foldlAdd_getCell (permuteCols_rect p df) hcp i,
      foldlAdd_getCell hrect hc i]
    exact permuteCols_getCell i hnd hrect hp hj0 hc

/-- C7, witness. -/
theorem C7_canonical_noop_witness :
    (((standardize_columns ⟨["企業名", "職種"],
        [[Cell.str "Acme", Cell.str "Dev"]]⟩).rows[0]?.bind (fun r => r[0]?)) =
      ((⟨["企業名", "職種"], [[Cell.str "Acme", Cell.str "Dev"]]⟩ :
        DataFrame).rows[0]?.bind (fun r => r[0]?))) ∧
    ((standardize_columns ⟨["企業名", "職種"],
        [[Cell.str "Acme", Cell.str "Dev"]]⟩).getCell 0 "企業名" =
      (⟨["企業名", "職種"], [[Cell.str "Acme", Cell.str "Dev"]]⟩ :
        DataFrame).getCell 0 "企業名") ∧
    ((standardize_columns (permuteCols [1, 0] ⟨["企業名", "職種"],
        [[Cell.str "Acme", Cell.str "Dev"]]⟩)).getCell 0 "企業名" =
      (standardize_columns ⟨["企業名", "職種"],
        [[Cell.str "Acme", Cell.str "Dev"]]⟩).getCell 0 "企業名") := by
  have hrect : DataFrame.Rect ⟨["企業名", "職種"], [[Cell.str "Acme", Cell.str "Dev"]]⟩ :=
    fun r hr => by rw [List.mem_singleton.mp hr]; rfl
  exact ⟨(C7_canonical_noop.1 _ hrect (by decide)).1 0 0 (by decide),
         (C7_canonical_noop.1 _ hrect (by decide)).2 "企業名" (by decide) 0,
         C7_canonical_noop.2 _ [1, 0] "企業名" 0 hrect (by decide) (by decide)
           (by decide) (by decide)⟩

/-- C8. `fetch_internship_data` never propagates an exception: when
the credentials service is unavailable (`get_google_sheets_service`
returned `None`) or the remote call raises, the function returns the
empty table, so the caller distinguishes failure from success only by
emptiness of the result. -/
theorem C8_fetch_failure_empty :
    ∀ env : FetchEnv,
      (env.serviceAvailable = false ∨ ∃ e, env.remoteResult = Except.error e) →
      fetch_internship_data env = DataFrame.empty := by
  intro env h
  rw [fetch_internship_data]
  rcases h with h | ⟨e, h⟩
  · rw [h]
    simp
  · rw [h]
    split <;> rfl

/-- C8, witness. -/
theorem C8_fetch_failure_empty_witness :
    ((⟨false, Except.ok [["企業名"], ["Acme"]]⟩ : FetchEnv).serviceAvailable = false ∨
      ∃ e, (⟨false, Except.ok [["企業名"], ["Acme"]]⟩ : FetchEnv).remoteResult =
        Except.error e) ∧
    fetch_internship_data ⟨false, Except.ok [["企業名"], ["Acme"]]⟩ = DataFrame.empty :=
  ⟨Or.inl rfl, C8_fetch_failure_empty _ (Or.inl rfl)⟩

/-- C9. For every input table, the result of `standardize_columns`
contains at least the six columns of `required_columns`; access to
these six by name never fails for a valid row index, and each of the
six that no renamed input column provides is filled with the "不明"
sentinel. (Only these six are guaranteed, not the full canonical
schema.) -/
theorem C9_required_always_present :
    ∀ df : DataFrame, df.Rect → ∀ c ∈ required_columns,
      (c ∈ (standardize_columns df).columns ∧
       (∀ i : Nat, i < df.rows.length →
         ((standardize_columns df).getCell i c).isSome = true) ∧
       (c ∉ (renameCols df).columns → ∀ i : Nat, i < df.rows.length →
         (standardize_columns df).getCell i c = some (Cell.str "不明"))) := by
  intro df hrect c hc
  have hrect' := renameCols_rect hrect
  refine ⟨?_, ?_, ?_⟩
  · show c ∈ (required_columns.foldl addCol (renameCols df)).columns
    exact mem_foldlAdd_of_mem hc
  · intro i hi
    by_cases hm : c ∈ (renameCols df).columns
    · show ((required_columns.foldl addCol (renameCols df)).getCell i c).isSome = true
      rw [foldlAdd_getCell hrect' hm i]
      rw [DataFrame.getCell, if_pos hm]
      obtain ⟨r, hri⟩ : ∃ r, (renameCols df).rows[i]? = some r := by
        cases hri : (renameCols df).rows[i]? with
        | none =>
          rw [List.getElem?_eq_none_iff] at hri
          have hlen : (renameCols df).rows.length = df.rows.length := rfl
          omega
        | some r => exact ⟨r, rfl⟩
      rw [hri]
      simp only [Option.some_bind]
      have hrmem : r ∈ (renameCols df).rows := by
        rcases List.getElem?_eq_some_iff.mp hri with ⟨hlt, he⟩
        exact he ▸ List.getElem_mem hlt
      have hltc : colIndex (renameCols df).columns c < r.length := by
        rw [hrect' r hrmem]
        exact colIndex_lt_length hm
      rw [List.getElem?_eq_getElem hltc]
      rfl
    · show ((required_columns.foldl addCol (renameCols df)).getCell i c).isSome = true
      rw [foldlAdd_getCell_new hrect' hm hc hi]
      rfl
  · intro hm i hi
    show (required_columns.foldl addCol (renameCols df)).getCell i c =
      some (Cell.str "不明")
    exact foldlAdd_getCell_new hrect' hm hc hi

/-- C9, witness. -/
theorem C9_required_always_present_witness :
    ("職種" ∈ required_columns ∧
     "職種" ∉ (renameCols ⟨["企業名"], [[Cell.str "Acme"]]⟩).columns) ∧
    ("職種" ∈ (standardize_columns ⟨["企業名"], [[Cell.str "Acme"]]⟩).columns ∧
     ((standardize_columns ⟨["企業名"], [[Cell.str "Acme"]]⟩).getCell 0
       "職種").isSome = true ∧
     (standardize_columns ⟨["企業名"], [[Cell.str "Acme"]]⟩).getCell 0 "職種" =
       some (Cell.str "不明")) := by
  have h := C9_required_always_present ⟨["企業名"], [[Cell.str "Acme"]]⟩
    (fun r hr => by rw [List.mem_singleton.mp hr]; rfl) "職種" (by decide)
  exact ⟨⟨by decide, by decide⟩, h.1, h.2.1 0 (by decide), h.2.2 (by decide) 0 (by decide)⟩

/-- C10. `format_deadline` returns the empty string on the
unparseable/absent marker (`NaT`, for which `pd.isna` holds) whatever
the current date is; on every actual deadline it returns a non-empty
string containing the deadline in year-month-day (`%Y-%m-%d`) form,
in each of its four branches. -/
theorem C10_format_deadline :
    (∀ today : Nat × Nat × Nat, format_deadline none today = "") ∧
    (∀ d today : Nat × Nat × Nat,
      format_deadline (some d) today ≠ "" ∧
      ∃ a b : String, format_deadline (some d) today = a ++ strftimeYMD d ++ b) := by
  constructor
  · intro today
    rfl
  · intro d today
    have hx : ∃ a b : String,
        format_deadline (some d) today = a ++ strftimeYMD d ++ b := by
      simp only [format_deadline]
      split
      · exact ⟨_, _, rfl⟩
      · split
        · exact ⟨_, _, rfl⟩
        · split
          · exact ⟨_, _, rfl⟩
          · exact ⟨"", "", by rw [String.empty_append, String.append_empty]⟩
    refine ⟨?_, hx⟩
    rcases hx with ⟨a, b, he⟩
    apply string_ne_empty_of_length_pos
    rw [he]
    simp only [String.length_append]
    have hpos := strftimeYMD_length_pos d
    omega
